import Mathlib

/-!
Shallow embedding of the task-management REST API
(repository `candidate-backend-api`, Go).

The embedding models the data layer of the four relational tables
(`tasks`, `comments`, `change_logs`, plus id counters standing for the
SERIAL columns) as an explicit `Db` state, and renders each Go service
method and HTTP handler as a state-passing Lean function.  Machine
details abstracted uniformly:

* Go `time.Time` values are modelled as `Nat` tick counts (`now`
  parameters stand for `CURRENT_TIMESTAMP`).
* task ids arriving as URL path strings are modelled by the integer the
  database compares them to.
* `strings.TrimSpace` is modelled by `String.trim`, and Go byte length
  `len` by `String.length` (they agree on the ASCII inputs used here).
* a change-log `INSERT` can fail either because the store rejects the
  write (the `logOk : Bool` parameter) or because the `task_id` foreign
  key no longer exists (migration `001_init_schema.sql` declares
  `REFERENCES tasks(id) ON DELETE CASCADE`); handlers discard this error
  (`_ = h.changeLogService.CreateChangeLog(...)`).
* the single quote character of Go format strings such as
  `changed title to %s` (the value single-quoted) is written via `Char.ofNat 39`.

Two update/delete code paths exist in the repository (the
service-backed `TaskHandler` wired in `cmd/api/main.go`, and an older
standalone `TaskHandler` variant kept in the same source dump); both
are embedded, as `TaskHandler` and `TaskHandlerB`.
-/

namespace CandidateApi

/-- The single-quote character used by the Go format strings. -/
def sq : String := String.singleton (Char.ofNat 39)

/-- Go `fmt.Sprintf` single-quoting of a value (`%s` between quote characters). -/
def quoted (s : String) : String := sq ++ s ++ sq

/-- Go `strings.TrimSpace`: leading and trailing whitespace removed,
rendered structurally on the character list so that concrete instances
evaluate. -/
def trimSpace (s : String) : String :=
  ⟨((s.data.dropWhile Char.isWhitespace).reverse.dropWhile Char.isWhitespace).reverse⟩

/-! ## Data model (src/internal/models, src/unnamed/part_003) -/

def statusToDo : String := "To Do"
def statusInProgress : String := "In Progress"
def statusDone : String := "Done"

structure Task where
  id : Nat
  title : String
  description : String
  status : String
  creatorId : Nat
  dueDate : Option Nat
  archived : Bool
  createdAt : Nat
  updatedAt : Nat
deriving DecidableEq, Repr

structure Comment where
  id : Nat
  taskId : Nat
  userId : Nat
  content : String
  createdAt : Nat
  updatedAt : Nat
deriving DecidableEq, Repr

structure ChangeLog where
  taskId : Nat
  userId : Nat
  action : String
  details : String
deriving DecidableEq, Repr

structure CreateTaskRequest where
  title : String
  description : String
  status : String
  dueDate : Option Nat
deriving DecidableEq, Repr

structure UpdateTaskRequest where
  title : Option String
  description : Option String
  status : Option String
  dueDate : Option Nat
deriving DecidableEq, Repr

/-- The relational store: the three task-related tables plus the SERIAL
id counters. -/
structure Db where
  tasks : List Task
  comments : List Comment
  logs : List ChangeLog
  nextTaskId : Nat
  nextCommentId : Nat
deriving DecidableEq, Repr

def findTask (db : Db) (id : Nat) : Option Task :=
  db.tasks.find? (fun t => t.id = id)

def findComment (db : Db) (id : Nat) : Option Comment :=
  db.comments.find? (fun c => c.id = id)

/-- Go service errors: `sql.ErrNoRows` or a `fmt.Errorf` message. -/
inductive GoError where
  | sqlNoRows : GoError
  | msg : String → GoError
deriving DecidableEq, Repr

/-! ## ChangeLogService (src/unnamed/part_000) -/

namespace ChangeLogService

/-- The accumulation loop of `FormatChangeDetails`
(`for i := 1; i < len(changes)-1; i++ { result += ", " + changes[i] }`
followed by `result += ", and " + changes[len(changes)-1]`), rendered
as structural recursion on the remaining elements. -/
def formatLoop (acc : String) : List String → String
  | [] => acc
  | [last] => acc ++ ", and " ++ last
  | x :: y :: t => formatLoop (acc ++ ", " ++ x) (y :: t)

/-- Embeds `FormatChangeDetails` (src/unnamed/part_000:61-82). -/
def FormatChangeDetails : List String → String
  | [] => ""
  | [a] => a
  | [a, b] => a ++ " and " ++ b
  | a :: rest => formatLoop a rest

end ChangeLogService

/-- Modelled from the spec: the elements "joined by `\", \"`"
(comma-separated), for comparison with the source
`FormatChangeDetails` on lists of three or more fragments. -/
def commaJoin : List String → String
  | [] => ""
  | [a] => a
  | a :: rest => a ++ ", " ++ commaJoin rest

theorem commaJoin_cons_cons (a b : String) (l : List String) :
    commaJoin (a :: b :: l) = a ++ ", " ++ commaJoin (b :: l) := rfl

theorem formatLoop_append_last (xs : List String) :
    ∀ (acc last : String),
      ChangeLogService.formatLoop acc (xs ++ [last]) =
        commaJoin (acc :: xs) ++ ", and " ++ last := by
  induction xs with
  | nil => intro acc last; rfl
  | cons x xs ih =>
    intro acc last
    cases xs with
    | nil =>
      show ChangeLogService.formatLoop (acc ++ ", " ++ x) [last] = _
      simp [ChangeLogService.formatLoop, commaJoin, String.append_assoc]
    | cons y ys =>
      have step :
          ChangeLogService.formatLoop acc (x :: ((y :: ys) ++ [last])) =
            ChangeLogService.formatLoop (acc ++ ", " ++ x) ((y :: ys) ++ [last]) := rfl
      rw [List.cons_append, step, ih]
      cases ys with
      | nil => simp [commaJoin, String.append_assoc]
      | cons z zs => simp [commaJoin, String.append_assoc]

theorem getLastD_concat' (l : List String) (a d : String) :
    (l ++ [a]).getLastD d = a := by
  rw [List.getLastD_eq_getLast?, List.getLast?_concat]; rfl

/-- The value of `FormatChangeDetails` on a list of length ≥ 3: the general shape. -/
theorem formatChangeDetails_ge3 (l : List String) (h : 3 ≤ l.length) :
    ChangeLogService.FormatChangeDetails l =
      commaJoin l.dropLast ++ ", and " ++ l.getLastD "" := by
  match l, h with
  | a :: b :: c :: t, _ =>
    rcases List.eq_nil_or_concat (c :: t) with hnil | ⟨m, z, hm⟩
    · exact absurd hnil (by simp)
    · rw [List.concat_eq_append] at hm
      have hl : a :: b :: c :: t = (a :: b :: m) ++ [z] := by rw [hm]; rfl
      rw [hl]
      have harr : ChangeLogService.FormatChangeDetails ((a :: b :: m) ++ [z]) =
          ChangeLogService.formatLoop a ((b :: m) ++ [z]) := by
        cases m with
        | nil => rfl
        | cons _ _ => rfl
      rw [harr, formatLoop_append_last, List.dropLast_concat, getLastD_concat']

/-! ## TaskValidator (src/internal/handlers/comment.go:266-346, package validators) -/

namespace TaskValidator

/-- Embeds `ValidateStatus`: membership in the three-value enum. -/
def ValidateStatus (status : String) : Except String Unit :=
  if status = statusToDo ∨ status = statusInProgress ∨ status = statusDone then
    Except.ok ()
  else
    Except.error ("invalid status: must be " ++ quoted "To Do" ++ ", " ++
      quoted "In Progress" ++ ", or " ++ quoted "Done")

/-- Embeds `ValidateCreateTask`: title trimmed non-empty, ≤ 500, status enum if provided. -/
def ValidateCreateTask (req : CreateTaskRequest) : Except String Unit :=
  if trimSpace req.title = "" then Except.error "title is required"
  else if req.title.length > 500 then Except.error "title must be less than 500 characters"
  else if req.status ≠ "" then ValidateStatus req.status
  else Except.ok ()

/-- Embeds `ValidateUpdateTask`: each present field checked with the create rules. -/
def ValidateUpdateTask (req : UpdateTaskRequest) : Except String Unit :=
  match req.title with
  | some t =>
    if trimSpace t = "" then Except.error "title cannot be empty"
    else if t.length > 500 then Except.error "title must be less than 500 characters"
    else
      match req.status with
      | some s => ValidateStatus s
      | none => Except.ok ()
  | none =>
    match req.status with
    | some s => ValidateStatus s
    | none => Except.ok ()

/-- Embeds `ValidatePagination`: limit ∈ [1,100], offset ≥ 0. -/
def ValidatePagination (limit offset : Int) : Except String Unit :=
  if limit < 1 ∨ limit > 100 then Except.error "limit must be between 1 and 100"
  else if offset < 0 then Except.error "offset must be >= 0"
  else Except.ok ()

end TaskValidator

/-! ## CommentValidator (src/internal/validators/comment_validator.go).
Defined in the repository but never invoked by any handler. -/

namespace CommentValidator

/-- Embeds `ValidateCreateComment`: content trimmed non-empty, ≤ 5000 characters. -/
def ValidateCreateComment (content : String) : Except String Unit :=
  if trimSpace content = "" then Except.error "comment content is required"
  else if content.length > 5000 then Except.error "comment must be less than 5000 characters"
  else Except.ok ()

/-- Embeds `ValidateUpdateComment`: same rule as create. -/
def ValidateUpdateComment (content : String) : Except String Unit :=
  if trimSpace content = "" then Except.error "comment content is required"
  else if content.length > 5000 then Except.error "comment must be less than 5000 characters"
  else Except.ok ()

end CommentValidator

/-! ## Store primitives shared by the services and handlers -/

/-- Observable store events, used to state ordering properties. -/
inductive Ev where
  | delTask : Nat → Ev
  | insLog : Nat → String → Ev
deriving DecidableEq, Repr

/-- Embeds `DELETE FROM tasks WHERE id = $1`, with the schema
`ON DELETE CASCADE` on `comments.task_id` and `change_logs.task_id`
(src/migrations/001_init_schema.sql). -/
def execDeleteTask (db : Db) (id : Nat) : Db :=
  { db with
    tasks := db.tasks.filter (fun t => t.id ≠ id),
    comments := db.comments.filter (fun c => c.taskId ≠ id),
    logs := db.logs.filter (fun l => l.taskId ≠ id) }

namespace ChangeLogService

/-- Embeds `CreateChangeLog` (src/unnamed/part_000:53-59): an `INSERT` into
`change_logs`; fails when the `task_id` foreign key has no row. -/
def CreateChangeLog (db : Db) (taskId userId : Nat) (action details : String) :
    Except String Db :=
  if (findTask db taskId).isSome then
    Except.ok { db with logs := db.logs ++ [⟨taskId, userId, action, details⟩] }
  else
    Except.error "foreign key violation"

end ChangeLogService

/-- A best-effort change-log insert as every handler performs it
(`_ = h.changeLogService.CreateChangeLog(...)` / `h.createChangeLog(...)`):
`ok` models whether the store accepts the write; any error is
discarded. -/
def tryLog (ok : Bool) (db : Db) (taskId userId : Nat) (action details : String) : Db :=
  if ok then
    match ChangeLogService.CreateChangeLog db taskId userId action details with
    | Except.ok db2 => db2
    | Except.error _ => db
  else db

/-! ## TaskService (src/internal/services/task_service.go) -/

/-- Embeds `ORDER BY <key> DESC`: insertion sort, descending. -/
def insertDescBy (key : Task → Nat) (t : Task) : List Task → List Task
  | [] => [t]
  | x :: xs => if key x ≤ key t then t :: x :: xs else x :: insertDescBy key t xs

def sortDescBy (key : Task → Nat) (l : List Task) : List Task :=
  l.foldr (insertDescBy key) []

/-- Embeds `LIMIT $1 OFFSET $2`. -/
def paginate (limit offset : Int) (l : List Task) : List Task :=
  (l.drop offset.toNat).take limit.toNat

/-- The row built by the create-task `INSERT` (shared by the service
path, task_service.go:91-104, and the standalone handler variant,
part_003:631-644): the status defaults to "To Do" when empty. -/
def newTaskRow (db : Db) (req : CreateTaskRequest) (userID now : Nat) : Task :=
  { id := db.nextTaskId, title := req.title, description := req.description,
    status := if req.status = "" then statusToDo else req.status,
    creatorId := userID, dueDate := req.dueDate,
    archived := false, createdAt := now, updatedAt := now }

def insertTaskRow (db : Db) (t : Task) : Db :=
  { db with tasks := db.tasks ++ [t], nextTaskId := db.nextTaskId + 1 }

namespace TaskService

/-- Embeds `GetTasks` (task_service.go:23-61): validates pagination, then queries
non-archived tasks ordered by `created_at DESC`.  The `Bool` component
records whether a query was issued to the store. -/
def GetTasks (db : Db) (limit offset : Int) : Except String (List Task) × Bool :=
  match TaskValidator.ValidatePagination limit offset with
  | Except.error e => (Except.error e, false)
  | Except.ok _ =>
    (Except.ok (paginate limit offset
      (sortDescBy Task.createdAt (db.tasks.filter (fun t => !t.archived)))), true)

/-- Embeds `CreateTask` (task_service.go:86-111): validate, default the status,
insert with `RETURNING`. -/
def CreateTask (db : Db) (req : CreateTaskRequest) (userID now : Nat) :
    Except String Task × Db :=
  match TaskValidator.ValidateCreateTask req with
  | Except.error e => (Except.error e, db)
  | Except.ok _ =>
    (Except.ok (newTaskRow db req userID now),
     insertTaskRow db (newTaskRow db req userID now))

/-- Embeds `CheckTaskOwnership` (task_service.go:199-214): `sql.ErrNoRows` is
converted to `"task not found"`; a different creator is rejected. -/
def CheckTaskOwnership (db : Db) (taskID userID : Nat) : Except GoError Unit :=
  match findTask db taskID with
  | none => Except.error (GoError.msg "task not found")
  | some t =>
    if t.creatorId ≠ userID then Except.error (GoError.msg "you can only modify your own tasks")
    else Except.ok ()

end TaskService

/-- The number of SQL arguments the dynamic update builds (`len(args)`
before `taskID` is appended): one per present field, all four fields
counted. -/
def numPresent (req : UpdateTaskRequest) : Nat :=
  (if req.title.isSome then 1 else 0) + (if req.description.isSome then 1 else 0) +
  (if req.status.isSome then 1 else 0) + (if req.dueDate.isSome then 1 else 0)

/-- Effect of the dynamic `UPDATE tasks SET ...` on the matched row:
every present field is assigned, `updated_at = CURRENT_TIMESTAMP`. -/
def applyUpdate (req : UpdateTaskRequest) (now : Nat) (t : Task) : Task :=
  { t with
    title := req.title.getD t.title,
    description := req.description.getD t.description,
    status := req.status.getD t.status,
    dueDate := match req.dueDate with | some d => some d | none => t.dueDate,
    updatedAt := now }

/-- Replace the row with the given id. -/
def updateRow (db : Db) (taskID : Nat) (t2 : Task) : Db :=
  { db with tasks := db.tasks.map (fun x => if x.id = taskID then t2 else x) }

namespace TaskService

/-- The change fragments `UpdateTask` accumulates while building the
query (task_service.go:130-152): title and status get `changed ... to`
plus the quoted value, a present description gets `updated description`, a present due
date appends an argument but no fragment. -/
def updateChanges (req : UpdateTaskRequest) : List String :=
  (match req.title with
   | some v => ["changed title to " ++ quoted v]
   | none => []) ++
  (match req.description with
   | some _ => ["updated description"]
   | none => []) ++
  (match req.status with
   | some v => ["changed status to " ++ quoted v]
   | none => [])

/-- Embeds `UpdateTask` (task_service.go:114-174): validate, check ownership,
build the dynamic update, reject zero present fields, execute. -/
def UpdateTask (db : Db) (taskID : Nat) (req : UpdateTaskRequest) (userID now : Nat) :
    Except GoError (Task × List String) × Db :=
  match TaskValidator.ValidateUpdateTask req with
  | Except.error e => (Except.error (GoError.msg e), db)
  | Except.ok _ =>
    match CheckTaskOwnership db taskID userID with
    | Except.error e => (Except.error e, db)
    | Except.ok _ =>
      if numPresent req = 0 then (Except.error (GoError.msg "no fields to update"), db)
      else
        match findTask db taskID with
        | none => (Except.error GoError.sqlNoRows, db)
        | some t =>
          let t2 := applyUpdate req now t
          (Except.ok (t2, updateChanges req), updateRow db taskID t2)

/-- Embeds `DeleteTask` (task_service.go:177-196): inline ownership lookup
(`sql.ErrNoRows` returned raw), then the cascading `DELETE`.  The event
list records the store operations issued. -/
def DeleteTask (db : Db) (taskID userID : Nat) :
    Except GoError String × Db × List Ev :=
  match findTask db taskID with
  | none => (Except.error GoError.sqlNoRows, db, [])
  | some t =>
    if t.creatorId ≠ userID then
      (Except.error (GoError.msg "you can only delete your own tasks"), db, [])
    else
      (Except.ok t.title, execDeleteTask db taskID, [Ev.delTask taskID])

end TaskService

/-! ## TaskArchiveService (src/internal/services/task_service.go:224-337) -/

namespace TaskArchiveService

/-- Embeds `ArchiveTask` (task_service.go:233-265): inline ownership lookup
(`sql.ErrNoRows` converted to `"task not found"`), then
`UPDATE tasks SET archived = TRUE, updated_at = CURRENT_TIMESTAMP`. -/
def ArchiveTask (db : Db) (taskID userID now : Nat) :
    Except GoError (Task × String) × Db :=
  match findTask db taskID with
  | none => (Except.error (GoError.msg "task not found"), db)
  | some t =>
    if t.creatorId ≠ userID then
      (Except.error (GoError.msg "you can only archive your own tasks"), db)
    else
      let t2 := { t with archived := true, updatedAt := now }
      (Except.ok (t2, t.title), updateRow db taskID t2)

/-- Embeds `UnarchiveTask` (task_service.go:268-300): as archive, with
`archived = FALSE`. -/
def UnarchiveTask (db : Db) (taskID userID now : Nat) :
    Except GoError (Task × String) × Db :=
  match findTask db taskID with
  | none => (Except.error (GoError.msg "task not found"), db)
  | some t =>
    if t.creatorId ≠ userID then
      (Except.error (GoError.msg "you can only unarchive your own tasks"), db)
    else
      let t2 := { t with archived := false, updatedAt := now }
      (Except.ok (t2, t.title), updateRow db taskID t2)

/-- Embeds `GetArchivedTasks` (task_service.go:303-337): queries archived tasks
ordered by `updated_at DESC`.  No pagination validation is performed;
the `Bool` component records that the query is always issued. -/
def GetArchivedTasks (db : Db) (limit offset : Int) :
    Except String (List Task) × Bool :=
  (Except.ok (paginate limit offset
    (sortDescBy Task.updatedAt (db.tasks.filter (fun t => t.archived)))), true)

end TaskArchiveService

/-! ## TaskHandler: the service-backed handlers wired in cmd/api/main.go
(src/unnamed/part_003:169-524).  Each handler returns the HTTP status,
the JSON body where it carries a task, and the resulting store. -/

namespace TaskHandler

/-- Embeds `CreateTask` (part_003:264-296): bind (title `binding:"required"`),
call the service (note the handler drops the request due date when it
builds `models.CreateTaskRequest`), best-effort `"created"` log. -/
def CreateTask (db : Db) (title description status : String) (userID now : Nat)
    (logOk : Bool) : Nat × Option Task × Db :=
  if title = "" then (400, none, db)
  else
    match TaskService.CreateTask db ⟨title, description, status, none⟩ userID now with
    | (Except.error _, db1) => (400, none, db1)
    | (Except.ok t, db1) =>
      (201, some t, tryLog logOk db1 t.id userID "created" ("Created task: " ++ t.title))

/-- Embeds `UpdateTask` (part_003:314-345): service call, error-message
dispatch to 404/403/400, best-effort `"updated"` log when the change
list is non-empty. -/
def UpdateTask (db : Db) (taskID : Nat) (req : UpdateTaskRequest) (userID now : Nat)
    (logOk : Bool) : Nat × Option Task × Db :=
  match TaskService.UpdateTask db taskID req userID now with
  | (Except.error e, db1) =>
    (if e = GoError.msg "task not found" then 404
     else if e = GoError.msg "you can only modify your own tasks" then 403
     else 400, none, db1)
  | (Except.ok (t, changes), db1) =>
    let db2 :=
      if changes.length > 0 then
        tryLog logOk db1 t.id userID "updated" (ChangeLogService.FormatChangeDetails changes)
      else db1
    (200, some t, db2)

/-- Embeds `DeleteTask` (part_003:361-385): the service call issues the
`DELETE`; the handler then attempts the `"deleted"` log entry. -/
def DeleteTask (db : Db) (taskID userID : Nat) (logOk : Bool) :
    Nat × Db × List Ev :=
  match TaskService.DeleteTask db taskID userID with
  | (Except.error e, db1, tr) =>
    (if e = GoError.sqlNoRows ∨ e = GoError.msg "task not found" then 404
     else if e = GoError.msg "you can only delete your own tasks" then 403
     else 500, db1, tr)
  | (Except.ok title, db1, tr) =>
    (200, tryLog logOk db1 taskID userID "deleted" ("Deleted task: " ++ title),
     tr ++ [Ev.insLog taskID "deleted"])

/-- Embeds `ArchiveTask` (part_003:401-423). -/
def ArchiveTask (db : Db) (taskID userID now : Nat) (logOk : Bool) :
    Nat × Option Task × Db :=
  match TaskArchiveService.ArchiveTask db taskID userID now with
  | (Except.error e, db1) =>
    (if e = GoError.msg "task not found" then 404
     else if e = GoError.msg "you can only archive your own tasks" then 403
     else 500, none, db1)
  | (Except.ok (t, title), db1) =>
    (200, some t, tryLog logOk db1 t.id userID "archived" ("Archived task: " ++ title))

/-- Embeds `UnarchiveTask` (part_003:439-461). -/
def UnarchiveTask (db : Db) (taskID userID now : Nat) (logOk : Bool) :
    Nat × Option Task × Db :=
  match TaskArchiveService.UnarchiveTask db taskID userID now with
  | (Except.error e, db1) =>
    (if e = GoError.msg "task not found" then 404
     else if e = GoError.msg "you can only unarchive your own tasks" then 403
     else 500, none, db1)
  | (Except.ok (t, title), db1) =>
    (200, some t, tryLog logOk db1 t.id userID "unarchived" ("Restored task: " ++ title))

end TaskHandler

/-! ## TaskHandlerB: the standalone handler variant kept in the same
source dump (src/unnamed/part_003:539-828), which talks to the store
directly. -/

namespace TaskHandlerB

/-- Embeds `CreateTask` (part_003:622-655): no validator; the same status
defaulting as the service before the insert. -/
def CreateTask (db : Db) (req : CreateTaskRequest) (userID now : Nat) (logOk : Bool) :
    Nat × Option Task × Db :=
  if req.title = "" then (400, none, db)
  else
    let t := newTaskRow db req userID now
    let db1 := insertTaskRow db t
    (201, some t, tryLog logOk db1 t.id userID "created" ("Created task: " ++ t.title))

/-- The change fragments this variant accumulates (part_003:690-711):
title and status only; present description and due date extend the
query but append no fragment. -/
def updateChangesB (req : UpdateTaskRequest) : List String :=
  (match req.title with
   | some v => ["title to " ++ quoted v]
   | none => []) ++
  (match req.status with
   | some v => ["status to " ++ quoted v]
   | none => [])

/-- The log details this variant builds: `"Updated "` then the
fragments joined by `", "`. -/
def updateDetailsB (changes : List String) : String :=
  "Updated " ++ commaJoin changes

/-- Embeds `UpdateTask` (part_003:657-744): inline ownership check first, then
bind (no field validation), dynamic update, zero-field rejection. -/
def UpdateTask (db : Db) (taskID : Nat) (req : UpdateTaskRequest) (userID now : Nat)
    (logOk : Bool) : Nat × Option Task × Db :=
  match findTask db taskID with
  | none => (404, none, db)
  | some t =>
    if t.creatorId ≠ userID then (403, none, db)
    else if numPresent req = 0 then (400, none, db)
    else
      let t2 := applyUpdate req now t
      let db1 := updateRow db taskID t2
      let changes := updateChangesB req
      let db2 :=
        if changes.length > 0 then
          tryLog logOk db1 taskID userID "updated" (updateDetailsB changes)
        else db1
      (200, some t2, db2)

/-- Embeds `DeleteTask` (part_003:746-778): inline ownership check, the
`"deleted"` log entry issued before the `DELETE`. -/
def DeleteTask (db : Db) (taskID userID : Nat) (logOk : Bool) :
    Nat × Db × List Ev :=
  match findTask db taskID with
  | none => (404, db, [])
  | some t =>
    if t.creatorId ≠ userID then (403, db, [])
    else
      let db1 := tryLog logOk db taskID userID "deleted" ("Deleted task: " ++ t.title)
      (200, execDeleteTask db1 taskID, [Ev.insLog taskID "deleted", Ev.delTask taskID])

end TaskHandlerB

/-! ## CommentHandler (src/internal/handlers/comment.go).  The handlers
bind the request (`content` carries gin `binding:"required"`, so only
the empty string is rejected) and never invoke the CommentValidator. -/

namespace CommentHandler

/-- Embeds `CreateComment` (comment.go:96-134): task-existence check, bind,
insert, best-effort `"commented"` log. -/
def CreateComment (db : Db) (taskID userID : Nat) (content : String) (now : Nat)
    (logOk : Bool) : Nat × Option Comment × Db :=
  if (findTask db taskID).isNone then (404, none, db)
  else if content = "" then (400, none, db)
  else
    let c : Comment := ⟨db.nextCommentId, taskID, userID, content, now, now⟩
    let db1 :=
      { db with comments := db.comments ++ [c], nextCommentId := db.nextCommentId + 1 }
    (201, some c, tryLog logOk db1 taskID userID "commented" "Added a comment")

/-- Embeds `UpdateComment` (comment.go:152-206): lookup, author-only check,
bind, update, best-effort `"updated_comment"` log. -/
def UpdateComment (db : Db) (commentID userID : Nat) (content : String) (now : Nat)
    (logOk : Bool) : Nat × Option Comment × Db :=
  match findComment db commentID with
  | none => (404, none, db)
  | some c0 =>
    if c0.userId ≠ userID then (403, none, db)
    else if content = "" then (400, none, db)
    else
      let c2 := { c0 with content := content, updatedAt := now }
      let db1 := { db with
        comments := db.comments.map (fun x => if x.id = commentID then c2 else x) }
      (200, some c2, tryLog logOk db1 c0.taskId userID "updated_comment" "Updated a comment")

/-- Embeds `DeleteComment` (comment.go:222-257): lookup, author-only check,
best-effort `"deleted_comment"` log before the `DELETE`. -/
def DeleteComment (db : Db) (commentID userID : Nat) (logOk : Bool) : Nat × Db :=
  match findComment db commentID with
  | none => (404, db)
  | some c0 =>
    if c0.userId ≠ userID then (403, db)
    else
      let db1 := tryLog logOk db c0.taskId userID "deleted_comment" "Deleted a comment"
      (200, { db1 with comments := db1.comments.filter (fun x => x.id ≠ commentID) })

end CommentHandler

/-! ## Concrete fixtures used by counterexamples and witnesses -/

/-- A task owned by user 1. -/
def task1 : Task :=
  { id := 1, title := "T", description := "D", status := "To Do", creatorId := 1,
    dueDate := none, archived := false, createdAt := 0, updatedAt := 0 }

/-- A store holding exactly `task1`. -/
def sampleDb : Db :=
  { tasks := [task1], comments := [], logs := [], nextTaskId := 2, nextCommentId := 1 }

/-- The update request with no field present. -/
def emptyUpdate : UpdateTaskRequest := ⟨none, none, none, none⟩

/-! ## C1 -/

/-- C1: `FormatChangeDetails` maps the empty list to the empty string, a
singleton to its element, a pair to the elements joined by " and ", and
a list of three or more elements to the elements joined by ", " with
", and " before the final element; in particular it sends [] to "",
["A"] to "A", ["A","B"] to "A and B" and ["A","B","C"] to
"A, B, and C". -/
theorem c1_format_change_details :
    ChangeLogService.FormatChangeDetails [] = "" ∧
    (∀ a, ChangeLogService.FormatChangeDetails [a] = a) ∧
    (∀ a b, ChangeLogService.FormatChangeDetails [a, b] = a ++ " and " ++ b) ∧
    (∀ l : List String, 3 ≤ l.length →
      ChangeLogService.FormatChangeDetails l =
        commaJoin l.dropLast ++ ", and " ++ l.getLastD "") ∧
    ChangeLogService.FormatChangeDetails ["A"] = "A" ∧
    ChangeLogService.FormatChangeDetails ["A", "B"] = "A and B" ∧
    ChangeLogService.FormatChangeDetails ["A", "B", "C"] = "A, B, and C" :=
  ⟨rfl, fun _ => rfl, fun _ _ => rfl, formatChangeDetails_ge3, rfl, rfl, rfl⟩

/-- C1 witness: the general clause of `c1_format_change_details`
instantiated at ["A","B","C"]. -/
theorem c1_format_change_details_witness :
    3 ≤ (["A", "B", "C"] : List String).length ∧
    ChangeLogService.FormatChangeDetails ["A", "B", "C"] =
      commaJoin (["A", "B", "C"] : List String).dropLast ++ ", and " ++
        (["A", "B", "C"] : List String).getLastD "" :=
  ⟨by decide, c1_format_change_details.2.2.2.1 ["A", "B", "C"] (by decide)⟩

/-! ## C2 -/

/-- C2 counterexample: in the service-backed update path
(`TaskService.UpdateTask`, task_service.go:114-174), an owner update in
which only the description is present succeeds and returns the fragment
list `["updated description"]`, not the empty list the claim states. -/
theorem c2_counterexample :
    (TaskService.UpdateTask sampleDb 1 ⟨none, some "new", none, none⟩ 1 5).1 =
      Except.ok ({ task1 with description := "new", updatedAt := 5 },
        ["updated description"]) ∧
    (["updated description"] : List String) ≠ ([] : List String) :=
  ⟨rfl, by decide⟩

/-- C2 (amended): for an owner update of an existing task, a present
due date produces no change fragment in either variant; a present
description produces exactly one fragment ("updated description") in
the service variant and none in the standalone handler variant; a
present title and a present status each produce exactly one fragment in
both variants. -/
theorem c2_amended (db : Db) (tid uid now : Nat) (logOk : Bool) (t : Task)
    (ht : findTask db tid = some t) (hown : t.creatorId = uid) :
    (∀ d, (TaskService.UpdateTask db tid ⟨none, some d, none, none⟩ uid now).1 =
        Except.ok (applyUpdate ⟨none, some d, none, none⟩ now t,
          ["updated description"])) ∧
    (∀ dd, (TaskService.UpdateTask db tid ⟨none, none, none, some dd⟩ uid now).1 =
        Except.ok (applyUpdate ⟨none, none, none, some dd⟩ now t,
          ([] : List String))) ∧
    (∀ v, trimSpace v ≠ "" → ¬ v.length > 500 →
      (TaskService.UpdateTask db tid ⟨some v, none, none, none⟩ uid now).1 =
        Except.ok (applyUpdate ⟨some v, none, none, none⟩ now t,
          ["changed title to " ++ quoted v])) ∧
    (∀ s, TaskValidator.ValidateStatus s = Except.ok () →
      (TaskService.UpdateTask db tid ⟨none, none, some s, none⟩ uid now).1 =
        Except.ok (applyUpdate ⟨none, none, some s, none⟩ now t,
          ["changed status to " ++ quoted s])) ∧
    (∀ d, TaskHandlerB.updateChangesB ⟨none, some d, none, none⟩ = []) ∧
    (∀ dd, TaskHandlerB.updateChangesB ⟨none, none, none, some dd⟩ = []) ∧
    (∀ v, TaskHandlerB.updateChangesB ⟨some v, none, none, none⟩ =
      ["title to " ++ quoted v]) ∧
    (∀ s, TaskHandlerB.updateChangesB ⟨none, none, some s, none⟩ =
      ["status to " ++ quoted s]) ∧
    (∀ d, (TaskHandlerB.UpdateTask db tid ⟨none, some d, none, none⟩ uid now logOk).1 =
        200 ∧
      (TaskHandlerB.UpdateTask db tid ⟨none, some d, none, none⟩ uid now logOk).2.2.logs =
        db.logs) := by
  refine ⟨?_, ?_, ?_, ?_, fun d => rfl, fun dd => rfl, fun v => rfl, fun s => rfl, ?_⟩
  · intro d
    simp [TaskService.UpdateTask, TaskValidator.ValidateUpdateTask,
      TaskService.CheckTaskOwnership, ht, hown, numPresent, TaskService.updateChanges]
  · intro dd
    simp [TaskService.UpdateTask, TaskValidator.ValidateUpdateTask,
      TaskService.CheckTaskOwnership, ht, hown, numPresent, TaskService.updateChanges]
  · intro v hv1 hv2
    simp [TaskService.UpdateTask, TaskValidator.ValidateUpdateTask, hv1, hv2,
      TaskService.CheckTaskOwnership, ht, hown, numPresent, TaskService.updateChanges]
  · intro s hs
    simp [TaskService.UpdateTask, TaskValidator.ValidateUpdateTask, hs,
      TaskService.CheckTaskOwnership, ht, hown, numPresent, TaskService.updateChanges]
  · intro d
    simp [TaskHandlerB.UpdateTask, ht, hown, numPresent, TaskHandlerB.updateChangesB,
      updateRow]

/-- C2 witness: `c2_amended` at the sample store, description-only
update by the owner. -/
theorem c2_amended_witness :
    (TaskService.UpdateTask sampleDb 1 ⟨none, some "x", none, none⟩ 1 5).1 =
      Except.ok (applyUpdate ⟨none, some "x", none, none⟩ 5 task1,
        ["updated description"]) :=
  (c2_amended sampleDb 1 1 5 true task1 rfl rfl).1 "x"

/-! ## C3 -/

theorem updateTask_empty_eq (db : Db) (tid uid now : Nat) :
    TaskService.UpdateTask db tid emptyUpdate uid now =
      ((match TaskService.CheckTaskOwnership db tid uid with
        | Except.error e => Except.error e
        | Except.ok _ => Except.error (GoError.msg "no fields to update")), db) := by
  cases h : TaskService.CheckTaskOwnership db tid uid with
  | error e =>
    simp [TaskService.UpdateTask, TaskValidator.ValidateUpdateTask, emptyUpdate, h]
  | ok u =>
    simp [TaskService.UpdateTask, TaskValidator.ValidateUpdateTask, emptyUpdate, h,
      numPresent]

theorem updateTaskB_empty_eq (db : Db) (tid uid now : Nat) (logOk : Bool) :
    TaskHandlerB.UpdateTask db tid emptyUpdate uid now logOk =
      (match findTask db tid with
       | none => (404, none, db)
       | some t => if t.creatorId ≠ uid then (403, none, db) else (400, none, db)) := by
  cases h : findTask db tid with
  | none => simp [TaskHandlerB.UpdateTask, h]
  | some t =>
    by_cases hc : t.creatorId = uid
    · simp [TaskHandlerB.UpdateTask, h, hc, numPresent, emptyUpdate]
    · simp [TaskHandlerB.UpdateTask, h, hc]

/-- C3: an update request with none of the four optional fields present
never succeeds and leaves the store untouched, in both update paths;
when the task exists and the caller owns it the error is exactly
"no fields to update" (service variant) and HTTP 400 (standalone
variant).  When the task is missing or foreign, the earlier ownership
check fails first, still without touching the store. -/
theorem c3_zero_fields_update (db : Db) (tid uid now : Nat) (logOk : Bool) :
    (∀ x, (TaskService.UpdateTask db tid emptyUpdate uid now).1 ≠ Except.ok x) ∧
    (TaskService.UpdateTask db tid emptyUpdate uid now).2 = db ∧
    (∀ t, findTask db tid = some t → t.creatorId = uid →
      (TaskService.UpdateTask db tid emptyUpdate uid now).1 =
        Except.error (GoError.msg "no fields to update")) ∧
    (TaskHandlerB.UpdateTask db tid emptyUpdate uid now logOk).2.2 = db ∧
    (TaskHandlerB.UpdateTask db tid emptyUpdate uid now logOk).1 ≠ 200 ∧
    (∀ t, findTask db tid = some t → t.creatorId = uid →
      (TaskHandlerB.UpdateTask db tid emptyUpdate uid now logOk).1 = 400) := by
  rw [updateTask_empty_eq, updateTaskB_empty_eq]
  cases h : findTask db tid with
  | none =>
    refine ⟨?_, rfl, ?_, rfl, ?_, ?_⟩
    · intro x
      simp [TaskService.CheckTaskOwnership, h]
    · intro t ht; exact absurd ht (by simp)
    · simp
    · intro t ht; exact absurd ht (by simp)
  | some t =>
    by_cases hc : t.creatorId = uid
    · refine ⟨?_, rfl, ?_, ?_, ?_, ?_⟩
      · intro x; simp [TaskService.CheckTaskOwnership, h, hc]
      · intro t2 ht2 hc2; simp [TaskService.CheckTaskOwnership, h, hc]
      · simp [hc]
      · simp [hc]
      · intro t2 ht2 hc2; simp [hc]
    · refine ⟨?_, rfl, ?_, ?_, ?_, ?_⟩
      · intro x; simp [TaskService.CheckTaskOwnership, h, hc]
      · intro t2 ht2 hc2
        injection ht2 with h2; subst h2; exact absurd hc2 hc
      · simp [hc]
      · simp [hc]
      · intro t2 ht2 hc2
        injection ht2 with h2; subst h2; exact absurd hc2 hc

/-- C3 witness: `c3_zero_fields_update` at the sample store with the
owner as caller. -/
theorem c3_zero_fields_update_witness :
    (TaskService.UpdateTask sampleDb 1 emptyUpdate 1 5).1 =
      Except.error (GoError.msg "no fields to update") ∧
    (TaskService.UpdateTask sampleDb 1 emptyUpdate 1 5).2 = sampleDb :=
  ⟨(c3_zero_fields_update sampleDb 1 1 5 true).2.2.1 task1 rfl rfl,
   (c3_zero_fields_update sampleDb 1 1 5 true).2.1⟩

/-! ## C4 -/

/-- C4: across the four service-backed mutating handlers (update,
delete, archive, unarchive), a nonexistent task id yields HTTP 404 and
an existing task owned by a different user yields HTTP 403; the two
statuses are distinct, so the failure kinds are never conflated.  (For
update the request must pass field validation, which runs before the
ownership check.) -/
theorem c4_notfound_vs_forbidden (db : Db) (tid uid now : Nat) (req : UpdateTaskRequest)
    (logOk : Bool) (hreq : TaskValidator.ValidateUpdateTask req = Except.ok ()) :
    (findTask db tid = none →
      (TaskHandler.UpdateTask db tid req uid now logOk).1 = 404 ∧
      (TaskHandler.DeleteTask db tid uid logOk).1 = 404 ∧
      (TaskHandler.ArchiveTask db tid uid now logOk).1 = 404 ∧
      (TaskHandler.UnarchiveTask db tid uid now logOk).1 = 404) ∧
    (∀ t, findTask db tid = some t → t.creatorId ≠ uid →
      (TaskHandler.UpdateTask db tid req uid now logOk).1 = 403 ∧
      (TaskHandler.DeleteTask db tid uid logOk).1 = 403 ∧
      (TaskHandler.ArchiveTask db tid uid now logOk).1 = 403 ∧
      (TaskHandler.UnarchiveTask db tid uid now logOk).1 = 403) ∧
    (404 : Nat) ≠ 403 := by
  refine ⟨?_, ?_, by decide⟩
  · intro h
    refine ⟨?_, ?_, ?_, ?_⟩
    · simp [TaskHandler.UpdateTask, TaskService.UpdateTask, hreq,
        TaskService.CheckTaskOwnership, h]
    · simp [TaskHandler.DeleteTask, TaskService.DeleteTask, h]
    · simp [TaskHandler.ArchiveTask, TaskArchiveService.ArchiveTask, h]
    · simp [TaskHandler.UnarchiveTask, TaskArchiveService.UnarchiveTask, h]
  · intro t h hne
    refine ⟨?_, ?_, ?_, ?_⟩
    · simp [TaskHandler.UpdateTask, TaskService.UpdateTask, hreq,
        TaskService.CheckTaskOwnership, h, hne]
    · simp [TaskHandler.DeleteTask, TaskService.DeleteTask, h, hne]
    · simp [TaskHandler.ArchiveTask, TaskArchiveService.ArchiveTask, h, hne]
    · simp [TaskHandler.UnarchiveTask, TaskArchiveService.UnarchiveTask, h, hne]

/-- C4 witness: `c4_notfound_vs_forbidden` at the sample store, for a
missing id (404) and for a foreign caller on an existing task (403). -/
theorem c4_notfound_vs_forbidden_witness :
    (TaskHandler.UpdateTask sampleDb 99 emptyUpdate 1 0 true).1 = 404 ∧
    (TaskHandler.ArchiveTask sampleDb 1 2 0 true).1 = 403 :=
  ⟨((c4_notfound_vs_forbidden sampleDb 99 1 0 emptyUpdate true rfl).1 rfl).1,
   ((c4_notfound_vs_forbidden sampleDb 1 2 0 emptyUpdate true rfl).2.1 task1 rfl
     (by decide)).2.2.1⟩

/-! ## C5 -/

/-- A best-effort change-log insert touches only the `change_logs`
table. -/
theorem tryLog_frame (ok : Bool) (db : Db) (a b : Nat) (c d : String) :
    (tryLog ok db a b c d).tasks = db.tasks ∧
    (tryLog ok db a b c d).comments = db.comments := by
  unfold tryLog ChangeLogService.CreateChangeLog
  cases ok with
  | false => simp
  | true =>
    by_cases hfk : (findTask db a).isSome <;> simp [hfk]

/-- The caller-visible outcome of a task handler: status, body, and the
primary tables. -/
def view3 (r : Nat × Option Task × Db) : Nat × Option Task × List Task × List Comment :=
  (r.1, r.2.1, r.2.2.tasks, r.2.2.comments)

def viewC (r : Nat × Option Comment × Db) :
    Nat × Option Comment × List Task × List Comment :=
  (r.1, r.2.1, r.2.2.tasks, r.2.2.comments)

def viewDel (r : Nat × Db × List Ev) : Nat × List Task × List Comment × List Ev :=
  (r.1, r.2.1.tasks, r.2.1.comments, r.2.2)

def viewDelC (r : Nat × Db) : Nat × List Task × List Comment :=
  (r.1, r.2.tasks, r.2.comments)

/-- C5: for every mutating handler (task create, update, delete,
archive, unarchive, and comment create/update/delete), the HTTP status,
the response body and the tasks/comments tables are the same whether
the change-log insert succeeds or fails: a change-log write failure
never fails or rolls back the primary operation. -/
theorem c5_log_write_independent (db : Db) (tid cid uid now : Nat)
    (title description status content : String) (req : UpdateTaskRequest)
    (o1 o2 : Bool) :
    view3 (TaskHandler.CreateTask db title description status uid now o1) =
      view3 (TaskHandler.CreateTask db title description status uid now o2) ∧
    view3 (TaskHandler.UpdateTask db tid req uid now o1) =
      view3 (TaskHandler.UpdateTask db tid req uid now o2) ∧
    viewDel (TaskHandler.DeleteTask db tid uid o1) =
      viewDel (TaskHandler.DeleteTask db tid uid o2) ∧
    view3 (TaskHandler.ArchiveTask db tid uid now o1) =
      view3 (TaskHandler.ArchiveTask db tid uid now o2) ∧
    view3 (TaskHandler.UnarchiveTask db tid uid now o1) =
      view3 (TaskHandler.UnarchiveTask db tid uid now o2) ∧
    viewC (CommentHandler.CreateComment db tid uid content now o1) =
      viewC (CommentHandler.CreateComment db tid uid content now o2) ∧
    viewC (CommentHandler.UpdateComment db cid uid content now o1) =
      viewC (CommentHandler.UpdateComment db cid uid content now o2) ∧
    viewDelC (CommentHandler.DeleteComment db cid uid o1) =
      viewDelC (CommentHandler.DeleteComment db cid uid o2) := by
  refine ⟨?_, ?_, ?_, ?_, ?_, ?_, ?_, ?_⟩
  · unfold TaskHandler.CreateTask
    by_cases ht : title = ""
    · simp [ht]
    · rcases hres : TaskService.CreateTask db ⟨title, description, status, none⟩ uid now
        with ⟨r, db1⟩
      cases r with
      | error e => simp [ht, hres, view3]
      | ok t => simp [ht, hres, view3, tryLog_frame]
  · unfold TaskHandler.UpdateTask
    rcases hres : TaskService.UpdateTask db tid req uid now with ⟨r, db1⟩
    cases r with
    | error e => simp [hres, view3]
    | ok p =>
      by_cases hl : p.2.length > 0 <;>
        simp [hres, view3, hl, tryLog_frame]
  · unfold TaskHandler.DeleteTask
    rcases hres : TaskService.DeleteTask db tid uid with ⟨r, db1, tr⟩
    cases r with
    | error e => simp [hres, viewDel]
    | ok t => simp [hres, viewDel, tryLog_frame]
  · unfold TaskHandler.ArchiveTask
    rcases hres : TaskArchiveService.ArchiveTask db tid uid now with ⟨r, db1⟩
    cases r with
    | error e => simp [hres, view3]
    | ok p => simp [hres, view3, tryLog_frame]
  · unfold TaskHandler.UnarchiveTask
    rcases hres : TaskArchiveService.UnarchiveTask db tid uid now with ⟨r, db1⟩
    cases r with
    | error e => simp [hres, view3]
    | ok p => simp [hres, view3, tryLog_frame]
  · unfold CommentHandler.CreateComment
    by_cases h1 : (findTask db tid).isNone
    · simp [h1]
    · by_cases h2 : content = "" <;> simp [h1, h2, viewC, tryLog_frame]
  · unfold CommentHandler.UpdateComment
    cases hc : findComment db cid with
    | none => simp [hc]
    | some c0 =>
      by_cases h1 : c0.userId ≠ uid
      · simp [hc, h1]
      · by_cases h2 : content = "" <;> simp [hc, h1, h2, viewC, tryLog_frame]
  · unfold CommentHandler.DeleteComment
    cases hc : findComment db cid with
    | none => simp [hc]
    | some c0 =>
      by_cases h1 : c0.userId ≠ uid
      · simp [hc, h1]
      · simp [hc, h1, viewDelC, tryLog_frame]

/-! ## C6 -/

/-- C6: in the service-backed delete path (part_003:361-385 calling
task_service.go:177-196), an owner delete issues the `DELETE` first and
only then attempts the "deleted" change-log insert — the reverse of the
claimed order — and the late insert violates the `task_id` foreign key,
so the entry is silently lost (the store ends with no logs).  The
standalone variant (part_003:746-778) does insert the log before the
delete, as its own comment ("Log before deletion (because of CASCADE)")
also promises for the first path; there the cascade then removes the
entry together with the task. -/
theorem c6_delete_log_ordering :
    (TaskHandler.DeleteTask sampleDb 1 1 true).1 = 200 ∧
    (TaskHandler.DeleteTask sampleDb 1 1 true).2.2 =
      [Ev.delTask 1, Ev.insLog 1 "deleted"] ∧
    (TaskHandler.DeleteTask sampleDb 1 1 true).2.1.logs = [] ∧
    (TaskHandlerB.DeleteTask sampleDb 1 1 true).2.2 =
      [Ev.insLog 1 "deleted", Ev.delTask 1] ∧
    (TaskHandlerB.DeleteTask sampleDb 1 1 true).2.1.logs = [] :=
  ⟨rfl, rfl, rfl, rfl, rfl⟩

/-! ## C7 -/

/-- If a row with the given id exists, its replacement is what the
lookup finds after `updateRow`. -/
theorem find?_updateRow (l : List Task) (tid : Nat) (t t2 : Task)
    (h : l.find? (fun x => x.id = tid) = some t) (h2 : t2.id = tid) :
    (l.map (fun x => if x.id = tid then t2 else x)).find? (fun x => x.id = tid) =
      some t2 := by
  induction l with
  | nil => simp at h
  | cons a l ih =>
    by_cases ha : a.id = tid
    · simp [ha, h2]
    · rw [List.find?_cons_of_neg _ (by simp [ha])] at h
      simp only [List.map_cons, if_neg ha]
      rw [List.find?_cons_of_neg _ (by simp [ha])]
      exact ih h

theorem findTask_id (db : Db) (tid : Nat) (t : Task)
    (h : findTask db tid = some t) : t.id = tid := by
  unfold findTask at h
  simpa using List.find?_some h

theorem findTask_updateRow (db : Db) (tid : Nat) (t t2 : Task)
    (h : findTask db tid = some t) (h2 : t2.id = tid) :
    findTask (updateRow db tid t2) tid = some t2 := by
  unfold findTask at h
  unfold findTask updateRow
  exact find?_updateRow db.tasks tid t t2 h h2

/-- An accepted change-log insert with an existing task row appends
exactly one entry. -/
theorem tryLog_logs_of_found (db : Db) (a b : Nat) (c d : String)
    (h : (findTask db a).isSome = true) :
    (tryLog true db a b c d).logs = db.logs ++ [⟨a, b, c, d⟩] := by
  simp [tryLog, ChangeLogService.CreateChangeLog, h]

/-- The successful owner path of the archive handler, characterized. -/
theorem archiveTask_ok (db : Db) (tid uid now : Nat) (logOk : Bool) (t : Task)
    (ht : findTask db tid = some t) (hown : t.creatorId = uid) :
    TaskHandler.ArchiveTask db tid uid now logOk =
      (200, some { t with archived := true, updatedAt := now },
        tryLog logOk (updateRow db tid { t with archived := true, updatedAt := now })
          t.id uid "archived" ("Archived task: " ++ t.title)) := by
  have hne : ¬ (t.creatorId ≠ uid) := by simp [hown]
  simp [TaskHandler.ArchiveTask, TaskArchiveService.ArchiveTask, ht, hne]

/-- The successful owner path of the unarchive handler, characterized. -/
theorem unarchiveTask_ok (db : Db) (tid uid now : Nat) (logOk : Bool) (t : Task)
    (ht : findTask db tid = some t) (hown : t.creatorId = uid) :
    TaskHandler.UnarchiveTask db tid uid now logOk =
      (200, some { t with archived := false, updatedAt := now },
        tryLog logOk (updateRow db tid { t with archived := false, updatedAt := now })
          t.id uid "unarchived" ("Restored task: " ++ t.title)) := by
  have hne : ¬ (t.creatorId ≠ uid) := by simp [hown]
  simp [TaskHandler.UnarchiveTask, TaskArchiveService.UnarchiveTask, ht, hne]

/-- C7 counterexample: archiving changes more than the archived flag of
the returned row: `updated_at` is refreshed as well
(`SET archived = TRUE, updated_at = CURRENT_TIMESTAMP`,
task_service.go:250-258). -/
theorem c7_counterexample :
    (TaskHandler.ArchiveTask sampleDb 1 1 7 true).1 = 200 ∧
    (TaskHandler.ArchiveTask sampleDb 1 1 7 true).2.1 =
      some { task1 with archived := true, updatedAt := 7 } ∧
    task1.updatedAt ≠ 7 :=
  ⟨rfl, rfl, by decide⟩

/-- C7 (amended): an owner archive (unarchive) of an existing task
always succeeds with HTTP 200, sets the archived flag and refreshes
`updated_at`, leaves every other field of the returned row and of the
stored row unchanged, and appends exactly one change-log entry — action
"archived" ("unarchived") with the task title in its details — when the
log insert is accepted. -/
theorem c7_archive_frame (db : Db) (tid uid now : Nat) (logOk : Bool) (t : Task)
    (ht : findTask db tid = some t) (hown : t.creatorId = uid) :
    (TaskHandler.ArchiveTask db tid uid now logOk).1 = 200 ∧
    (TaskHandler.ArchiveTask db tid uid now logOk).2.1 =
      some { t with archived := true, updatedAt := now } ∧
    (TaskHandler.ArchiveTask db tid uid now logOk).2.2.tasks =
      db.tasks.map (fun x =>
        if x.id = tid then { t with archived := true, updatedAt := now } else x) ∧
    (logOk = true →
      (TaskHandler.ArchiveTask db tid uid now logOk).2.2.logs =
        db.logs ++ [⟨tid, uid, "archived", "Archived task: " ++ t.title⟩]) ∧
    (TaskHandler.UnarchiveTask db tid uid now logOk).1 = 200 ∧
    (TaskHandler.UnarchiveTask db tid uid now logOk).2.1 =
      some { t with archived := false, updatedAt := now } ∧
    (TaskHandler.UnarchiveTask db tid uid now logOk).2.2.tasks =
      db.tasks.map (fun x =>
        if x.id = tid then { t with archived := false, updatedAt := now } else x) ∧
    (logOk = true →
      (TaskHandler.UnarchiveTask db tid uid now logOk).2.2.logs =
        db.logs ++ [⟨tid, uid, "unarchived", "Restored task: " ++ t.title⟩]) := by
  have hid : t.id = tid := findTask_id db tid t ht
  have harch := archiveTask_ok db tid uid now logOk t ht hown
  have hunarch := unarchiveTask_ok db tid uid now logOk t ht hown
  have hfindA : findTask
      (updateRow db tid { t with archived := true, updatedAt := now }) t.id =
        some { t with archived := true, updatedAt := now } := by
    rw [hid]; exact findTask_updateRow db tid t _ ht rfl
  have hfindU : findTask
      (updateRow db tid { t with archived := false, updatedAt := now }) t.id =
        some { t with archived := false, updatedAt := now } := by
    rw [hid]; exact findTask_updateRow db tid t _ ht rfl
  refine ⟨?_, ?_, ?_, ?_, ?_, ?_, ?_, ?_⟩
  · rw [harch]
  · rw [harch]
  · rw [harch]
    simp [tryLog_frame, updateRow]
  · intro hok; subst hok
    rw [harch]
    show (tryLog true _ _ _ _ _).logs = _
    rw [tryLog_logs_of_found _ _ _ _ _ (by rw [hfindA]; rfl)]
    simp [updateRow, hid]
  · rw [hunarch]
  · rw [hunarch]
  · rw [hunarch]
    simp [tryLog_frame, updateRow]
  · intro hok; subst hok
    rw [hunarch]
    show (tryLog true _ _ _ _ _).logs = _
    rw [tryLog_logs_of_found _ _ _ _ _ (by rw [hfindU]; rfl)]
    simp [updateRow, hid]

/-- C7 witness: `c7_archive_frame` at the sample store. -/
theorem c7_archive_frame_witness :
    (TaskHandler.ArchiveTask sampleDb 1 1 7 true).2.1 =
      some { task1 with archived := true, updatedAt := 7 } ∧
    (TaskHandler.ArchiveTask sampleDb 1 1 7 true).2.2.logs =
      sampleDb.logs ++ [⟨1, 1, "archived", "Archived task: " ++ task1.title⟩] :=
  ⟨(c7_archive_frame sampleDb 1 1 7 true task1 rfl rfl).2.1,
   (c7_archive_frame sampleDb 1 1 7 true task1 rfl rfl).2.2.2.1 rfl⟩

/-! ## C8 -/

/-- C8 counterexample: the archived listing accepts limit = 101 and
issues the query (`GetArchivedTasks`, task_service.go:303-337, performs
no pagination validation), where the claim requires rejection before
any query. -/
theorem c8_counterexample :
    (TaskArchiveService.GetArchivedTasks sampleDb 101 0).2 = true ∧
    (TaskArchiveService.GetArchivedTasks sampleDb 101 0).1 =
      Except.ok ([] : List Task) :=
  ⟨rfl, rfl⟩

/-- C8 (amended): the default listing (`TaskService.GetTasks`) accepts
limit ∈ [1,100] with offset ≥ 0 and rejects limit = 0, limit = 101 or
offset = -1 before issuing any query; the archived listing
(`TaskArchiveService.GetArchivedTasks`) performs no pagination
validation and always issues the query. -/
theorem c8_pagination (db : Db) (limit offset : Int) :
    (1 ≤ limit → limit ≤ 100 → 0 ≤ offset →
      (TaskService.GetTasks db limit offset).2 = true ∧
      ∃ l, (TaskService.GetTasks db limit offset).1 = Except.ok l) ∧
    (limit = 0 ∨ limit = 101 ∨ offset = -1 →
      (TaskService.GetTasks db limit offset).2 = false ∧
      ∃ e, (TaskService.GetTasks db limit offset).1 = Except.error e) ∧
    ((TaskArchiveService.GetArchivedTasks db limit offset).2 = true ∧
      ∃ l, (TaskArchiveService.GetArchivedTasks db limit offset).1 = Except.ok l) := by
  refine ⟨?_, ?_, rfl, _, rfl⟩
  · intro h1 h2 h3
    have hc1 : ¬ (limit < 1 ∨ limit > 100) := by omega
    have hc2 : ¬ (offset < 0) := by omega
    simp [TaskService.GetTasks, TaskValidator.ValidatePagination, hc1, hc2]
  · intro h
    by_cases hc1 : limit < 1 ∨ limit > 100
    · simp [TaskService.GetTasks, TaskValidator.ValidatePagination, hc1]
    · have hc2 : offset < 0 := by omega
      simp [TaskService.GetTasks, TaskValidator.ValidatePagination, hc1, hc2]

/-- C8 witness: `c8_pagination` instantiated at an accepted and at a
rejected pagination pair. -/
theorem c8_pagination_witness :
    (TaskService.GetTasks sampleDb 10 0).2 = true ∧
    (TaskService.GetTasks sampleDb 101 0).2 = false :=
  ⟨((c8_pagination sampleDb 10 0).1 (by decide) (by decide) (by decide)).1,
   ((c8_pagination sampleDb 101 0).2.1 (Or.inr (Or.inl rfl))).1⟩

/-! ## C9 -/

/-- C9 counterexample: a whitespace-only comment (a single space) is
accepted by the create-comment handler with HTTP 201 and written to the
store, although the (never-invoked) CommentValidator rejects it; the
claim requires rejection before any store write. -/
theorem c9_counterexample :
    (CommentHandler.CreateComment sampleDb 1 1 " " 3 true).1 = 201 ∧
    (CommentHandler.CreateComment sampleDb 1 1 " " 3 true).2.2.comments =
      [⟨1, 1, 1, " ", 3, 3⟩] ∧
    CommentValidator.ValidateCreateComment " " =
      Except.error "comment content is required" := by
  refine ⟨rfl, rfl, ?_⟩
  have h : trimSpace " " = "" := by decide
  simp [CommentValidator.ValidateCreateComment, h]

/-- C9 (amended): the CommentValidator defines the identical rule
(trimmed non-empty, at most 5000 characters) for create and update, but
neither comment handler invokes it: the handlers only reject a missing
or empty content string, so any non-empty content — including
whitespace-only or over-length content — is accepted and written to the
store. -/
theorem c9_comment_validation (db : Db) (tid cid uid now : Nat) (content : String)
    (logOk : Bool) :
    CommentValidator.ValidateCreateComment content =
      CommentValidator.ValidateUpdateComment content ∧
    ((findTask db tid).isSome → content ≠ "" →
      (CommentHandler.CreateComment db tid uid content now logOk).1 = 201 ∧
      (CommentHandler.CreateComment db tid uid content now logOk).2.2.comments =
        db.comments ++ [⟨db.nextCommentId, tid, uid, content, now, now⟩]) ∧
    (∀ c0, findComment db cid = some c0 → c0.userId = uid → content ≠ "" →
      (CommentHandler.UpdateComment db cid uid content now logOk).1 = 200 ∧
      (CommentHandler.UpdateComment db cid uid content now logOk).2.2.comments =
        db.comments.map (fun x =>
          if x.id = cid then { c0 with content := content, updatedAt := now } else x)) := by
  refine ⟨rfl, ?_, ?_⟩
  · intro h1 h2
    have h1n : (findTask db tid).isNone = false := by
      cases hft : findTask db tid
      · rw [hft] at h1; simp at h1
      · rfl
    simp [CommentHandler.CreateComment, h1n, h2, tryLog_frame]
  · intro c0 hc hu h2
    have hne : ¬ (c0.userId ≠ uid) := by simp [hu]
    simp [CommentHandler.UpdateComment, hc, hne, h2, tryLog_frame]

/-- C9 witness: `c9_comment_validation` at the sample store with
whitespace-only content. -/
theorem c9_comment_validation_witness :
    (CommentHandler.CreateComment sampleDb 1 1 " " 3 true).1 = 201 ∧
    (CommentHandler.CreateComment sampleDb 1 1 " " 3 true).2.2.comments =
      sampleDb.comments ++ [⟨sampleDb.nextCommentId, 1, 1, " ", 3, 3⟩] :=
  (c9_comment_validation sampleDb 1 1 1 3 " " true).2.1 rfl (by decide)

/-! ## C10 -/

theorem validateStatus_ne_empty (s : String)
    (h : TaskValidator.ValidateStatus s = Except.ok ()) : s ≠ "" := by
  unfold TaskValidator.ValidateStatus at h
  by_cases hc : s = statusToDo ∨ s = statusInProgress ∨ s = statusDone
  · rcases hc with h1 | h1 | h1 <;> (rw [h1]; decide)
  · simp [hc] at h

/-- The successful path of the service create, characterized. -/
theorem createTask_ok (db : Db) (req : CreateTaskRequest) (uid now : Nat)
    (hv : TaskValidator.ValidateCreateTask req = Except.ok ()) :
    TaskService.CreateTask db req uid now =
      (Except.ok (newTaskRow db req uid now),
        insertTaskRow db (newTaskRow db req uid now)) := by
  simp [TaskService.CreateTask, hv]

/-- C10: a create request that passes validation with an absent or
empty status yields a task whose status is "To Do"; the default is
applied before the insert, and a created task never has an empty
status.  The standalone handler variant applies the same defaulting. -/
theorem c10_default_status (db : Db) (req : CreateTaskRequest) (uid now : Nat)
    (hv : TaskValidator.ValidateCreateTask req = Except.ok ()) :
    (∃ t, (TaskService.CreateTask db req uid now).1 = Except.ok t ∧
      t.status = (if req.status = "" then statusToDo else req.status) ∧
      t.status ≠ "" ∧
      (TaskService.CreateTask db req uid now).2.tasks = db.tasks ++ [t]) ∧
    (req.status = "" → ∀ t, (TaskService.CreateTask db req uid now).1 = Except.ok t →
      t.status = "To Do") ∧
    (req.title ≠ "" → req.status = "" →
      ∃ t, (TaskHandlerB.CreateTask db req uid now true).2.1 = some t ∧
        t.status = "To Do") := by
  have hstatus : (if req.status = "" then statusToDo else req.status) ≠ "" := by
    by_cases hs : req.status = ""
    · simp [hs, statusToDo]
    · simp [hs]
  have hok := createTask_ok db req uid now hv
  refine ⟨?_, ?_, ?_⟩
  · refine ⟨newTaskRow db req uid now, ?_, ?_, ?_, ?_⟩
    · rw [hok]
    · simp [newTaskRow]
    · simpa [newTaskRow] using hstatus
    · rw [hok]; simp [insertTaskRow]
  · intro hs t htok
    rw [hok] at htok
    injection htok with h
    rw [← h]
    simp [newTaskRow, hs, statusToDo]
  · intro ht hs
    refine ⟨newTaskRow db req uid now, ?_, ?_⟩
    · simp [TaskHandlerB.CreateTask, ht]
    · simp [newTaskRow, hs, statusToDo]

/-- C10 witness: `c10_default_status` at a concrete valid request with
empty status. -/
theorem c10_default_status_witness :
    ∃ t, (TaskService.CreateTask sampleDb ⟨"Ship release", "", "", none⟩ 1 9).1 =
      Except.ok t ∧
      t.status = (if ("" : String) = "" then statusToDo else "") ∧
      t.status ≠ "" ∧
      (TaskService.CreateTask sampleDb ⟨"Ship release", "", "", none⟩ 1 9).2.tasks =
        sampleDb.tasks ++ [t] :=
  (c10_default_status sampleDb ⟨"Ship release", "", "", none⟩ 1 9 rfl).1

end CandidateApi
